import Mathlib

/-!
# Verification of the project-man timesheet core

A shallow embedding of the timesheet aggregator (`getTimesheetData` in
`src/app/(dashboard)/actions/time-actions.ts`), the time-entry writers
(`addManualTimeEntry`, `stopTimer`, ibid.) and the client-side cell
reconciler (`handleCellSave`, `handleDeleteTimeForDay` in the timesheet
page component), together with proofs of the specified properties.

Modelling conventions:
* JavaScript numbers carrying minute counts are modelled as `ℚ`
  (every value the program produces is exactly representable).
* Timestamps are milliseconds since the Unix epoch, as `Int`.
* A `"YYYY-MM-DD"` date string is modelled by its UTC day index
  (`Int`); for well-formed date strings, lexicographic string order
  coincides with the numeric order of day indices, so the source's
  string comparisons `entryDate >= startDate` etc. become `≤` on day
  indices, and `new Date(ts).toISOString().split('T')[0]` becomes the
  floor division of the instant by 86 400 000.
* JavaScript objects `{ [date: string]: number }` are modelled as
  insertion-ordered association lists.
* `localeCompare` is a host-supplied comparison and is modelled as an
  abstract parameter `lc : String → String → Int`.
* Remote operations are recorded in an explicit call trace; a failure
  oracle `failDelete` says which `deleteTimeEntry` calls fail.
-/

namespace ProjectMan

abbrev Millis := Int
abbrev Day := Int

def msPerDay : Int := 86400000

/-- UTC calendar day of an instant:
`new Date(ts).toISOString().split('T')[0]`, encoded as a day index. -/
def utcDay (ts : Millis) : Day := Int.fdiv ts msPerDay

/-- A `time_entries` row (the columns the timesheet core reads/writes). -/
structure TimeEntry where
  id : Nat
  task_id : String
  user_id : String
  minutes : ℚ
  description : Option String
  started_at : Option Millis
  ended_at : Option Millis
  created_at : Millis
deriving Repr, DecidableEq

/-- A `tasks` row (the columns the aggregator reads). -/
structure Task where
  id : String
  title : String
  status : String
  assignee_id : String
deriving Repr, DecidableEq

/-- `TimesheetTaskData` of time-actions.ts: one derived row of the report. -/
structure TimesheetTaskData where
  task_id : String
  task_title : String
  task_status : String
  assignee_id : String
  daily_time : List (Day × ℚ)
  total_minutes : ℚ
deriving Repr, DecidableEq

/-- `TimesheetData` of time-actions.ts: the aggregated report. -/
structure TimesheetData where
  tasks : List TimesheetTaskData
  daily_totals : List (Day × ℚ)
  week_total : ℚ
deriving Repr, DecidableEq

/-- Object read with falsy default: `m[k] || 0`. -/
def lookupD (m : List (Day × ℚ)) (k : Day) : ℚ :=
  match m.find? (fun p => p.1 == k) with
  | some p => p.2
  | none => 0

/-- Object update `if (!m[k]) m[k] = 0; m[k] += v`: add to the (unique)
existing binding in place, else append a new binding at the end. -/
def bump : List (Day × ℚ) → Day → ℚ → List (Day × ℚ)
  | [], k, v => [(k, v)]
  | p :: rest, k, v =>
    if p.1 = k then (p.1, p.2 + v) :: rest else p :: bump rest k v

/-- Effective instant of an entry: `started_at` if set, else `created_at`. -/
def entryTs (e : TimeEntry) : Millis := e.started_at.getD e.created_at

/-- Effective date of an entry (§3 of the design): the UTC date of
`started_at` if present, else of `created_at`. -/
def effDay (e : TimeEntry) : Day := utcDay (entryTs e)

/-- Seeding one report row per assigned task (`taskMap.set(task.id, {...})`). -/
def seedRow (t : Task) : TimesheetTaskData :=
  { task_id := t.id, task_title := t.title, task_status := t.status,
    assignee_id := t.assignee_id, daily_time := [], total_minutes := 0 }

/-- `Map.set` keyed by `task_id`: replace the existing binding in place,
else append. -/
def mapSet : List TimesheetTaskData → TimesheetTaskData → List TimesheetTaskData
  | [], r => [r]
  | q :: rest, r =>
    if q.task_id = r.task_id then r :: rest else q :: mapSet rest r

def seedRows (tasks : List Task) : List TimesheetTaskData :=
  tasks.foldl (fun rows t => mapSet rows (seedRow t)) []

/-- Attribute `v` minutes on day `d` to a row: the two `+=` updates on
`task.daily_time[entryDate]` and `task.total_minutes`. -/
def bumpRow (r : TimesheetTaskData) (d : Day) (v : ℚ) : TimesheetTaskData :=
  { r with daily_time := bump r.daily_time d v,
           total_minutes := r.total_minutes + v }

/-- Mutate the unique row with the given key (`taskMap.get(entry.task_id)`
followed by in-place `+=` updates). -/
def updateRow : List TimesheetTaskData → String → Day → ℚ → List TimesheetTaskData
  | [], _, _, _ => []
  | r :: rest, t, d, v =>
    if r.task_id = t then bumpRow r d v :: rest else r :: updateRow rest t d v

/-- One iteration of the `timeEntries.forEach` loop of `getTimesheetData`:
in-range entries are attributed to their task's row when the task is in the
seeded map, and to `dailyTotals` in either case. -/
def processEntry (startDate endDate : Day)
    (st : List TimesheetTaskData × List (Day × ℚ)) (e : TimeEntry) :
    List TimesheetTaskData × List (Day × ℚ) :=
  let d := effDay e
  if startDate ≤ d ∧ d ≤ endDate then
    if st.1.any (fun r => r.task_id == e.task_id) then
      (updateRow st.1 e.task_id d e.minutes, bump st.2 d e.minutes)
    else
      (st.1, bump st.2 d e.minutes)
  else st

/-- `Object.values(m).reduce((sum, x) => sum + x, 0)`. -/
def sumValues (m : List (Day × ℚ)) : ℚ := (m.map Prod.snd).sum

/-- The sort comparator of `getTimesheetData`:
`b.total_minutes - a.total_minutes` when the totals differ, else
`a.task_title.localeCompare(b.task_title)`; `rowLE lc a b` says the
comparator allows `a` before `b` (comparator value `≤ 0`). -/
def rowLE (lc : String → String → Int) (a b : TimesheetTaskData) : Bool :=
  if b.total_minutes ≠ a.total_minutes then
    decide (b.total_minutes < a.total_minutes)
  else
    decide (lc a.task_title b.task_title ≤ 0)

/-- The timesheet aggregator: the pure part of `getTimesheetData`
(time-actions.ts), applied to the fetched entry and task snapshots.
`lc` is the host's `localeCompare`. -/
def getTimesheetData (lc : String → String → Int)
    (timeEntries : List TimeEntry) (tasks : List Task)
    (startDate endDate : Day) : TimesheetData :=
  let seeded := seedRows tasks
  let st := timeEntries.foldl (processEntry startDate endDate) (seeded, [])
  { tasks := st.1.mergeSort (rowLE lc),
    daily_totals := st.2,
    week_total := sumValues st.2 }

/-- Total minutes of a list of entries. -/
def sumMinutes (l : List TimeEntry) : ℚ := (l.map TimeEntry.minutes).sum

/-- Boolean form of the aggregator's range test
(`entryDate >= startDate && entryDate <= endDate`). -/
def inRangeB (startDate endDate : Day) (e : TimeEntry) : Bool :=
  decide (startDate ≤ effDay e) && decide (effDay e ≤ endDate)

/-! ## Time-entry writers (time-actions.ts) -/

/-- `AddManualTimeEntryInput` of time-actions.ts. -/
structure AddManualTimeEntryInput where
  task_id : String
  minutes : ℚ
  description : Option String
deriving Repr, DecidableEq

/-- The row written by `addManualTimeEntry` once the authentication and
assignee checks have passed: `minutes` is floored to 1, `description`
falls back to null when falsy (`input.description || null`), `started_at`
and `ended_at` are not set, and `created_at` is the insertion instant
`now` (the backend's row default); `newId` is the id the backend assigns. -/
def addManualTimeEntry (now : Millis) (newId : Nat) (user : String)
    (input : AddManualTimeEntryInput) : TimeEntry :=
  let minutes := if input.minutes < 1 then 1 else input.minutes
  { id := newId, task_id := input.task_id, user_id := user,
    minutes := minutes,
    description := match input.description with
      | some s => if s = "" then none else some s
      | none => none,
    started_at := none, ended_at := none, created_at := now }

/-- JavaScript `Math.round x = ⌊x + 1/2⌋` (half-up, also for negatives). -/
def jsRound (x : ℚ) : Int := Int.floor (x + 1/2)

/-- The row written by `stopTimer` once the authentication and assignee
checks have passed: minutes is the wall-clock elapsed time rounded with
`Math.round`, floored to 1; `started_at`/`ended_at` record the start and
stop instants; `created_at` is the insertion instant (= stop instant). -/
def stopTimer (taskId user : String) (newId : Nat)
    (startedAt now : Millis) : TimeEntry :=
  let calculatedMinutes : Int := jsRound (((now - startedAt : Int) : ℚ) / (1000 * 60))
  let minutes : Int := if calculatedMinutes < 1 then 1 else calculatedMinutes
  { id := newId, task_id := taskId, user_id := user,
    minutes := (minutes : ℚ), description := none,
    started_at := some startedAt, ended_at := some now, created_at := now }

/-! ## Cell-input parsing (`handleCellSave`, lines 753–756) -/

def digitVal (c : Char) : Nat := c.toNat - 48

def isHexDigit (c : Char) : Bool :=
  c.isDigit || ('a' ≤ c && c ≤ 'f') || ('A' ≤ c && c ≤ 'F')

def hexVal (c : Char) : Nat :=
  if c.isDigit then c.toNat - 48
  else if 'a' ≤ c ∧ c ≤ 'f' then c.toNat - 87
  else c.toNat - 55

/-- JavaScript `parseInt(s)` with no radix argument: skip leading
whitespace, read an optional sign, then either a `0x`/`0X`-prefixed hex
digit run or a decimal digit run (trailing garbage ignored); `none`
models `NaN` (no digit read). -/
def jsParseInt (s : String) : Option Int :=
  let cs := s.toList.dropWhile (fun c =>
    c = ' ' ∨ c = '\t' ∨ c = '\n' ∨ c = '\r')
  let signed : Int × List Char :=
    match cs with
    | '-' :: rest => (-1, rest)
    | '+' :: rest => (1, rest)
    | _ => (1, cs)
  let body : Option Nat :=
    match signed.2 with
    | '0' :: 'x' :: rest =>
      let ds := rest.takeWhile isHexDigit
      if ds = [] then none else some (ds.foldl (fun a c => a * 16 + hexVal c) 0)
    | '0' :: 'X' :: rest =>
      let ds := rest.takeWhile isHexDigit
      if ds = [] then none else some (ds.foldl (fun a c => a * 16 + hexVal c) 0)
    | l =>
      let ds := l.takeWhile Char.isDigit
      if ds = [] then none else some (ds.foldl (fun a c => a * 10 + digitVal c) 0)
  body.map (fun n => signed.1 * (n : Int))

/-- `x || 0` applied to a `parseInt` result: `NaN` becomes 0 (so does 0). -/
def jsOr0 (x : Option Int) : Int := x.getD 0

/-- JavaScript `s.split(sep)` for a one-character separator: the (possibly
empty) chunks between occurrences of `sep`; `"".split(sep) = [""]`. -/
def splitAux (sep : Char) : List Char → List Char → List (List Char)
  | [], acc => [acc.reverse]
  | c :: rest, acc =>
    if c = sep then acc.reverse :: splitAux sep rest []
    else splitAux sep rest (c :: acc)

def jsSplit (s : String) (sep : Char) : List String :=
  (splitAux sep s.toList []).map (fun cs => String.mk cs)

/-- Lines 753–756 of the timesheet page:
`const [hoursStr, minsStr] = editValue.split(':')`,
`hours = parseInt(hoursStr) || 0`, `minutes = parseInt(minsStr) || 0`,
`totalMinutes = hours * 60 + minutes`.  A missing component destructures
to `undefined`, which `parseInt` turns into `NaN`. -/
def parseCellInput (editValue : String) : Int :=
  let parts := jsSplit editValue ':'
  let hours := jsOr0 ((parts.get? 0).bind jsParseInt)
  let minutes := jsOr0 ((parts.get? 1).bind jsParseInt)
  hours * 60 + minutes

/-- Lines 763–766: `if (totalMinutes > 0 && totalMinutes < 1) totalMinutes = 1`. -/
def clampedTotal (editValue : String) : Int :=
  let t := parseCellInput editValue
  if 0 < t ∧ t < 1 then 1 else t

/-! ## Cell reconciler and day-level bulk delete (timesheet page) -/

/-- One remote operation issued by the timesheet page. -/
inductive RemoteCall where
  | getUser : RemoteCall
  | selectEntries (task_id user_id : String) : RemoteCall
  | deleteEntry (id : Nat) : RemoteCall
  | insertEntry (e : TimeEntry) : RemoteCall
  | reload : RemoteCall
deriving Repr, DecidableEq

/-- Ambient facts about a reconciliation run: the runtime's UTC offset
(milliseconds east of UTC, used by timezone-less `new Date(...)` parses),
the current instant, the id the backend will assign to an inserted row,
the authenticated user, and which `deleteTimeEntry` calls fail. -/
structure Env where
  tz : Int
  now : Millis
  newId : Nat
  user : String
  failDelete : Nat → Bool

/-- `new Date(date + 'T00:00:00')`: the day's first instant, parsed in
local time. -/
def dateStartMs (tz : Int) (d : Day) : Millis := d * msPerDay - tz

/-- `new Date(date + 'T23:59:59')`: second precision, so 999 ms before
the day actually ends, parsed in local time. -/
def dateEndMs (tz : Int) (d : Day) : Millis := d * msPerDay + 86399000 - tz

/-- The `entriesToDelete` filter shared by `handleDeleteTimeForDay` and
`handleCellSave`: the entry's instant (`started_at` if set, else
`created_at`) lies in the `[T00:00:00, T23:59:59]` window of the day. -/
def matchesDay (tz : Int) (d : Day) (e : TimeEntry) : Bool :=
  decide (dateStartMs tz d ≤ entryTs e) && decide (entryTs e ≤ dateEndMs tz d)

/-- The browser read
`from('time_entries').select(...).eq('task_id', taskId).eq('user_id', user)`. -/
def fetchTaskEntries (E : List TimeEntry) (taskId user : String) : List TimeEntry :=
  E.filter (fun e => e.task_id == taskId && e.user_id == user)

/-- Outcome of a reconciliation run: the remote calls issued in order,
the entry set actually reached, and the alert messages shown. -/
structure ReconcileResult where
  calls : List RemoteCall
  entries : List TimeEntry
  alerts : List String
deriving Repr, DecidableEq

/-- The delete ids appearing in a call trace, in order. -/
def deletesOf (calls : List RemoteCall) : List Nat :=
  calls.filterMap (fun c => match c with
    | RemoteCall.deleteEntry id => some id
    | _ => none)

/-- The delete loop of `handleDeleteTimeForDay`: issue the deletes in
order and `break` after the first failing call.  Returns the issued ids,
the ids actually deleted, and the first error message, if any. -/
def bulkDeleteLoop (failDelete : Nat → Bool) :
    List TimeEntry → List Nat × List Nat × Option String
  | [] => ([], [], none)
  | e :: rest =>
    if failDelete e.id then ([e.id], [], some "delete failed")
    else
      let r := bulkDeleteLoop failDelete rest
      (e.id :: r.1, e.id :: r.2.1, r.2.2)

/-- `handleDeleteTimeForDay` (timesheet page, lines 706–748), after the
user confirms the dialog: fetch the task's entries, filter them to the
day's `[T00:00:00, T23:59:59]` window, delete them one by one aborting
on the first failure (which is alerted), then reload the report.  An
empty fetch returns early, before the reload. -/
def handleDeleteTimeForDay (env : Env) (E : List TimeEntry)
    (taskId : String) (d : Day) : ReconcileResult :=
  let fetched := fetchTaskEntries E taskId env.user
  if fetched = [] then
    { calls := [RemoteCall.getUser, RemoteCall.selectEntries taskId env.user],
      entries := E, alerts := [] }
  else
    let toDelete := fetched.filter (matchesDay env.tz d)
    let r := bulkDeleteLoop env.failDelete toDelete
    { calls := [RemoteCall.getUser, RemoteCall.selectEntries taskId env.user]
        ++ r.1.map RemoteCall.deleteEntry ++ [RemoteCall.reload],
      entries := E.filter (fun e => !(r.2.1.contains e.id)),
      alerts := match r.2.2 with | some m => [m] | none => [] }

/-- `task?.daily_time[editingCell.date] || 0` read from the last-loaded
report (lines 768–770). -/
def currentOf (report : TimesheetData) (taskId : String) (d : Day) : ℚ :=
  match report.tasks.find? (fun t => t.task_id == taskId) with
  | some t => lookupD t.daily_time d
  | none => 0

/-- `handleCellSave` (timesheet page, lines 750–836): parse the edited
`"H:MM"` value, reject negatives, floor a fractional positive to 1,
diff against the last-loaded report and reconcile:
* `difference = 0`: nothing is issued;
* `difference < 0`: fetch the task's entries, delete the ones in the
  day's window — ignoring each delete's result — then, when the target
  is positive, insert one replacement entry via `addManualTimeEntry`,
  and reload;
* `difference > 0`: insert one entry of `difference` minutes via
  `addManualTimeEntry` and reload. -/
def handleCellSave (env : Env) (report : TimesheetData) (E : List TimeEntry)
    (taskId : String) (d : Day) (editValue : String) : ReconcileResult :=
  if parseCellInput editValue < 0 then
    { calls := [], entries := E, alerts := ["Time cannot be negative"] }
  else
    let totalMinutes := clampedTotal editValue
    let currentMinutes := currentOf report taskId d
    let difference : ℚ := (totalMinutes : ℚ) - currentMinutes
    if difference = 0 then
      { calls := [], entries := E, alerts := [] }
    else if difference < 0 then
      let fetched := fetchTaskEntries E taskId env.user
      let toDelete := fetched.filter (matchesDay env.tz d)
      let issued := toDelete.map TimeEntry.id
      let deleted := (toDelete.filter (fun e => !env.failDelete e.id)).map TimeEntry.id
      let afterDelete := E.filter (fun e => !(deleted.contains e.id))
      if 0 < totalMinutes then
        let newEntry := addManualTimeEntry env.now env.newId env.user
          { task_id := taskId, minutes := (totalMinutes : ℚ),
            description := some ("Timesheet entry for " ++ toString d) }
        { calls := [RemoteCall.getUser, RemoteCall.selectEntries taskId env.user]
            ++ issued.map RemoteCall.deleteEntry
            ++ [RemoteCall.insertEntry newEntry, RemoteCall.reload],
          entries := afterDelete ++ [newEntry], alerts := [] }
      else
        { calls := [RemoteCall.getUser, RemoteCall.selectEntries taskId env.user]
            ++ issued.map RemoteCall.deleteEntry ++ [RemoteCall.reload],
          entries := afterDelete, alerts := [] }
    else
      let newEntry := addManualTimeEntry env.now env.newId env.user
        { task_id := taskId, minutes := difference,
          description := some ("Timesheet entry for " ++ toString d) }
      { calls := [RemoteCall.insertEntry newEntry, RemoteCall.reload],
        entries := E ++ [newEntry], alerts := [] }

/-! ### Branch equations for `handleCellSave` -/

/-- The entries of the day's window the reduction branch will delete. -/
def toDeleteOf (env : Env) (E : List TimeEntry) (taskId : String) (d : Day) :
    List TimeEntry :=
  (fetchTaskEntries E taskId env.user).filter (matchesDay env.tz d)

/-- The replacement entry the reconciler inserts. -/
def cellEntry (env : Env) (taskId : String) (d : Day) (minutes : ℚ) : TimeEntry :=
  addManualTimeEntry env.now env.newId env.user
    { task_id := taskId, minutes := minutes,
      description := some ("Timesheet entry for " ++ toString d) }

theorem handleCellSave_negative (env : Env) (report : TimesheetData)
    (E : List TimeEntry) (taskId : String) (d : Day) (editValue : String)
    (hneg : parseCellInput editValue < 0) :
    handleCellSave env report E taskId d editValue
      = { calls := [], entries := E, alerts := ["Time cannot be negative"] } := by
  simp only [handleCellSave]
  rw [if_pos hneg]

theorem handleCellSave_noop (env : Env) (report : TimesheetData)
    (E : List TimeEntry) (taskId : String) (d : Day) (editValue : String)
    (hneg : ¬ parseCellInput editValue < 0)
    (hdiff : (clampedTotal editValue : ℚ) - currentOf report taskId d = 0) :
    handleCellSave env report E taskId d editValue
      = { calls := [], entries := E, alerts := [] } := by
  simp only [handleCellSave]
  rw [if_neg hneg, if_pos hdiff]

theorem handleCellSave_insert (env : Env) (report : TimesheetData)
    (E : List TimeEntry) (taskId : String) (d : Day) (editValue : String)
    (hneg : ¬ parseCellInput editValue < 0)
    (hdiff : 0 < (clampedTotal editValue : ℚ) - currentOf report taskId d) :
    handleCellSave env report E taskId d editValue
      = { calls := [RemoteCall.insertEntry (cellEntry env taskId d
              ((clampedTotal editValue : ℚ) - currentOf report taskId d)),
            RemoteCall.reload],
          entries := E ++ [cellEntry env taskId d
              ((clampedTotal editValue : ℚ) - currentOf report taskId d)],
          alerts := [] } := by
  simp only [handleCellSave]
  rw [if_neg hneg, if_neg (ne_of_gt hdiff), if_neg (not_lt_of_gt hdiff)]
  rfl

theorem handleCellSave_reduce_zero (env : Env) (report : TimesheetData)
    (E : List TimeEntry) (taskId : String) (d : Day) (editValue : String)
    (hneg : ¬ parseCellInput editValue < 0)
    (hdiff : (clampedTotal editValue : ℚ) - currentOf report taskId d < 0)
    (hzero : ¬ 0 < clampedTotal editValue) :
    handleCellSave env report E taskId d editValue
      = { calls := [RemoteCall.getUser, RemoteCall.selectEntries taskId env.user]
            ++ ((toDeleteOf env E taskId d).map TimeEntry.id).map RemoteCall.deleteEntry
            ++ [RemoteCall.reload],
          entries := E.filter (fun e =>
            !((((toDeleteOf env E taskId d).filter
                (fun e => !env.failDelete e.id)).map TimeEntry.id).contains e.id)),
          alerts := [] } := by
  simp only [handleCellSave]
  rw [if_neg hneg, if_neg (ne_of_lt hdiff), if_pos hdiff, if_neg hzero]
  rfl

theorem handleCellSave_reduce_insert (env : Env) (report : TimesheetData)
    (E : List TimeEntry) (taskId : String) (d : Day) (editValue : String)
    (hneg : ¬ parseCellInput editValue < 0)
    (hdiff : (clampedTotal editValue : ℚ) - currentOf report taskId d < 0)
    (hpos : 0 < clampedTotal editValue) :
    handleCellSave env report E taskId d editValue
      = { calls := [RemoteCall.getUser, RemoteCall.selectEntries taskId env.user]
            ++ ((toDeleteOf env E taskId d).map TimeEntry.id).map RemoteCall.deleteEntry
            ++ [RemoteCall.insertEntry (cellEntry env taskId d (clampedTotal editValue : ℚ)),
              RemoteCall.reload],
          entries := E.filter (fun e =>
            !((((toDeleteOf env E taskId d).filter
                (fun e => !env.failDelete e.id)).map TimeEntry.id).contains e.id))
            ++ [cellEntry env taskId d (clampedTotal editValue : ℚ)],
          alerts := [] } := by
  simp only [handleCellSave]
  rw [if_neg hneg, if_neg (ne_of_lt hdiff), if_pos hdiff, if_pos hpos]
  rfl

/-! ## Characterization of the aggregator

The entry loop of `getTimesheetData` is a left fold of `processEntry`.
We factor its effect: the `daily_totals` component is a fold of `bump`
over the in-range entries (`foldDT`), and each report row evolves
independently of the others (`applyEntries`). -/

/-- Effect of one entry on `dailyTotals`. -/
def dtStep (s t : Day) (m : List (Day × ℚ)) (e : TimeEntry) : List (Day × ℚ) :=
  if s ≤ effDay e ∧ effDay e ≤ t then bump m (effDay e) e.minutes else m

def foldDT (s t : Day) (m : List (Day × ℚ)) (E : List TimeEntry) : List (Day × ℚ) :=
  E.foldl (dtStep s t) m

/-- Effect of one entry on one report row. -/
def rowStep (s t : Day) (e : TimeEntry) (r : TimesheetTaskData) : TimesheetTaskData :=
  if (s ≤ effDay e ∧ effDay e ≤ t) ∧ r.task_id = e.task_id then
    bumpRow r (effDay e) e.minutes
  else r

/-- Cumulative effect of the entry loop on one report row. -/
def applyEntries (s t : Day) (r : TimesheetTaskData) (E : List TimeEntry) :
    TimesheetTaskData :=
  E.foldl (fun r e => rowStep s t e r) r

theorem inRangeB_iff (s t : Day) (e : TimeEntry) :
    inRangeB s t e = true ↔ s ≤ effDay e ∧ effDay e ≤ t := by
  simp [inRangeB]

theorem lookupD_nil (k : Day) : lookupD [] k = 0 := rfl

theorem lookupD_cons (p : Day × ℚ) (l : List (Day × ℚ)) (k : Day) :
    lookupD (p :: l) k = if p.1 = k then p.2 else lookupD l k := by
  by_cases h : p.1 = k <;> simp [lookupD, List.find?_cons, h]

theorem sumValues_nil : sumValues [] = 0 := rfl

theorem sumValues_cons (p : Day × ℚ) (l : List (Day × ℚ)) :
    sumValues (p :: l) = p.2 + sumValues l := by
  simp [sumValues]

theorem sumMinutes_nil : sumMinutes [] = 0 := rfl

theorem sumMinutes_cons (e : TimeEntry) (l : List TimeEntry) :
    sumMinutes (e :: l) = e.minutes + sumMinutes l := by
  simp [sumMinutes]

theorem sumValues_bump (m : List (Day × ℚ)) (k : Day) (v : ℚ) :
    sumValues (bump m k v) = sumValues m + v := by
  induction m with
  | nil => simp [bump, sumValues]
  | cons p rest ih =>
    by_cases h : p.1 = k
    · simp [bump, h, sumValues_cons]; ring
    · simp [bump, h, sumValues_cons, ih]; ring

theorem notInRangeB (s t : Day) (e : TimeEntry)
    (hr : ¬(s ≤ effDay e ∧ effDay e ≤ t)) : inRangeB s t e = false := by
  rw [Bool.eq_false_iff]
  intro hh
  exact hr ((inRangeB_iff s t e).mp hh)

theorem lookupD_bump (m : List (Day × ℚ)) (k : Day) (v : ℚ) (k' : Day) :
    lookupD (bump m k v) k' = lookupD m k' + (if k' = k then v else 0) := by
  induction m with
  | nil =>
    simp only [bump, lookupD_cons, lookupD_nil]
    by_cases h : k' = k
    · subst h; simp
    · rw [if_neg (Ne.symm h), if_neg h]; simp
  | cons p rest ih =>
    simp only [bump]
    by_cases hp : p.1 = k
    · rw [if_pos hp]
      simp only [lookupD_cons]
      by_cases hk : p.1 = k'
      · have hkk : k' = k := by rw [← hk, hp]
        rw [if_pos hk, if_pos hk, if_pos hkk]
      · have hkk : ¬ k' = k := fun hh => hk (by rw [hp, ← hh])
        rw [if_neg hk, if_neg hk, if_neg hkk]; simp
    · rw [if_neg hp]
      simp only [lookupD_cons]
      by_cases hk : p.1 = k'
      · have hkk : ¬ k' = k := fun hh => hp (by rw [hk, hh])
        rw [if_pos hk, if_pos hk, if_neg hkk]; simp
      · rw [if_neg hk, if_neg hk, ih]

theorem foldDT_lookup (s t : Day) (E : List TimeEntry) : ∀ m d,
    lookupD (foldDT s t m E) d
      = lookupD m d
        + sumMinutes (E.filter (fun e => inRangeB s t e && (effDay e == d))) := by
  induction E with
  | nil => intro m d; simp [foldDT, sumMinutes]
  | cons e E ih =>
    intro m d
    rw [show foldDT s t m (e :: E) = foldDT s t (dtStep s t m e) E from rfl, ih]
    by_cases hr : s ≤ effDay e ∧ effDay e ≤ t
    · have hb : inRangeB s t e = true := (inRangeB_iff s t e).mpr hr
      by_cases hd : effDay e = d
      · subst hd
        simp [dtStep, hr, lookupD_bump, List.filter_cons, hb, sumMinutes_cons]
        ring
      · have hdd : ¬ d = effDay e := fun hh => hd hh.symm
        simp [dtStep, hr, lookupD_bump, List.filter_cons, hb, hd, hdd]
    · have hb : inRangeB s t e = false := notInRangeB s t e hr
      simp [dtStep, hr, List.filter_cons, hb]

theorem foldDT_sum (s t : Day) (E : List TimeEntry) : ∀ m,
    sumValues (foldDT s t m E)
      = sumValues m + sumMinutes (E.filter (inRangeB s t)) := by
  induction E with
  | nil => intro m; simp [foldDT, sumMinutes]
  | cons e E ih =>
    intro m
    rw [show foldDT s t m (e :: E) = foldDT s t (dtStep s t m e) E from rfl, ih]
    by_cases hr : s ≤ effDay e ∧ effDay e ≤ t
    · have hb : inRangeB s t e = true := (inRangeB_iff s t e).mpr hr
      simp [dtStep, hr, sumValues_bump, List.filter_cons, hb, sumMinutes_cons]
      ring
    · have hb : inRangeB s t e = false := notInRangeB s t e hr
      simp [dtStep, hr, List.filter_cons, hb]

/-- Rows with pairwise-distinct task ids: the invariant Map semantics
maintains for the seeded `taskMap`. -/
def nodupKeys (rows : List TimesheetTaskData) : Prop :=
  rows.Pairwise (fun a b => a.task_id ≠ b.task_id)

theorem rowStep_task_id (s t : Day) (e : TimeEntry) (r : TimesheetTaskData) :
    (rowStep s t e r).task_id = r.task_id := by
  unfold rowStep
  split <;> rfl

theorem applyEntries_task_id (s t : Day) (E : List TimeEntry) : ∀ r,
    (applyEntries s t r E).task_id = r.task_id := by
  induction E with
  | nil => intro r; rfl
  | cons e E ih =>
    intro r
    rw [show applyEntries s t r (e :: E) = applyEntries s t (rowStep s t e r) E from rfl,
      ih, rowStep_task_id]

theorem map_rowStep_id (s t : Day) (e : TimeEntry) (rows : List TimesheetTaskData)
    (h : ∀ r ∈ rows, r.task_id ≠ e.task_id) :
    rows.map (rowStep s t e) = rows := by
  have h2 : rows.map (rowStep s t e) = rows.map id :=
    List.map_congr_left (fun r hr => by
      unfold rowStep
      rw [if_neg (fun hc => h r hr hc.2)]
      rfl)
  rw [h2, List.map_id]

theorem map_rowStep_id_out (s t : Day) (e : TimeEntry) (rows : List TimesheetTaskData)
    (h : ¬(s ≤ effDay e ∧ effDay e ≤ t)) :
    rows.map (rowStep s t e) = rows := by
  have h2 : rows.map (rowStep s t e) = rows.map id :=
    List.map_congr_left (fun r _ => by
      unfold rowStep
      rw [if_neg (fun hc => h hc.1)]
      rfl)
  rw [h2, List.map_id]

theorem updateRow_eq_map (s t : Day) (e : TimeEntry)
    (hr : s ≤ effDay e ∧ effDay e ≤ t) (rows : List TimesheetTaskData) :
    nodupKeys rows →
      updateRow rows e.task_id (effDay e) e.minutes = rows.map (rowStep s t e) := by
  induction rows with
  | nil => intro _; rfl
  | cons q rest ih =>
    intro h
    rcases List.pairwise_cons.mp h with ⟨hq, hrest⟩
    by_cases hm : q.task_id = e.task_id
    · unfold updateRow
      rw [if_pos hm, List.map_cons,
        map_rowStep_id s t e rest
          (fun r hrr hc => (hq r hrr) (hm.trans hc.symm))]
      unfold rowStep
      rw [if_pos ⟨hr, hm⟩]
    · unfold updateRow
      rw [if_neg hm, List.map_cons]
      congr 1
      · unfold rowStep
        rw [if_neg (fun hc => hm hc.2)]
      · exact ih hrest

theorem processEntry_eq (s t : Day) (rows : List TimesheetTaskData)
    (m : List (Day × ℚ)) (e : TimeEntry) (h : nodupKeys rows) :
    processEntry s t (rows, m) e = (rows.map (rowStep s t e), dtStep s t m e) := by
  unfold processEntry dtStep
  by_cases hr : s ≤ effDay e ∧ effDay e ≤ t
  · simp only [hr, if_true, if_pos]
    by_cases hx : rows.any (fun r => r.task_id == e.task_id) = true
    · simp only [hx, if_true, if_pos]
      rw [updateRow_eq_map s t e hr rows h]
      simp
    · have hall : ∀ r ∈ rows, r.task_id ≠ e.task_id := by
        intro r hrr hc
        exact (Bool.eq_false_iff.mp (Bool.of_not_eq_true hx))
          (List.any_eq_true.mpr ⟨r, hrr, by simp [hc]⟩)
      simp only [Bool.of_not_eq_true hx]
      rw [map_rowStep_id s t e rows hall]
      simp
  · simp only [hr, if_false]
    rw [map_rowStep_id_out s t e rows hr]

theorem processEntry_nodup (s t : Day) (rows : List TimesheetTaskData)
    (e : TimeEntry) (h : nodupKeys rows) :
    nodupKeys (rows.map (rowStep s t e)) := by
  unfold nodupKeys
  rw [List.pairwise_map]
  exact h.imp (fun hab => by simpa [rowStep_task_id] using hab)

theorem processAll_eq (s t : Day) (E : List TimeEntry) : ∀ rows m, nodupKeys rows →
    E.foldl (processEntry s t) (rows, m)
      = (rows.map (fun r => applyEntries s t r E), foldDT s t m E) := by
  induction E with
  | nil =>
    intro rows m _
    simp [applyEntries, foldDT]
  | cons e E ih =>
    intro rows m h
    rw [List.foldl_cons, processEntry_eq s t rows m e h,
      ih _ _ (processEntry_nodup s t rows e h), List.map_map]
    rfl

theorem applyEntries_total (s t : Day) (E : List TimeEntry) : ∀ r,
    (applyEntries s t r E).total_minutes
      = r.total_minutes
        + sumMinutes (E.filter (fun e =>
            inRangeB s t e && (e.task_id == r.task_id))) := by
  induction E with
  | nil => intro r; simp [applyEntries, sumMinutes]
  | cons e E ih =>
    intro r
    rw [show applyEntries s t r (e :: E) = applyEntries s t (rowStep s t e r) E from rfl,
      ih]
    simp only [rowStep_task_id]
    by_cases hr : s ≤ effDay e ∧ effDay e ≤ t
    · have hb : inRangeB s t e = true := (inRangeB_iff s t e).mpr hr
      by_cases hm : e.task_id = r.task_id
      · have hstep : rowStep s t e r = bumpRow r (effDay e) e.minutes := by
          unfold rowStep
          rw [if_pos ⟨hr, hm.symm⟩]
        rw [hstep]
        simp [bumpRow, List.filter_cons, hb, hm, sumMinutes_cons]
        ring
      · have hstep : rowStep s t e r = r := by
          unfold rowStep
          rw [if_neg (fun hc => hm hc.2.symm)]
        rw [hstep]
        simp [List.filter_cons, hb, hm]
    · have hstep : rowStep s t e r = r := by
        unfold rowStep
        rw [if_neg (fun hc => hr hc.1)]
      have hb : inRangeB s t e = false := notInRangeB s t e hr
      rw [hstep]
      simp [List.filter_cons, hb]

theorem applyEntries_daily (s t : Day) (E : List TimeEntry) : ∀ r d,
    lookupD (applyEntries s t r E).daily_time d
      = lookupD r.daily_time d
        + sumMinutes (E.filter (fun e =>
            inRangeB s t e && (e.task_id == r.task_id) && (effDay e == d))) := by
  induction E with
  | nil => intro r d; simp [applyEntries, sumMinutes]
  | cons e E ih =>
    intro r d
    rw [show applyEntries s t r (e :: E) = applyEntries s t (rowStep s t e r) E from rfl,
      ih]
    simp only [rowStep_task_id]
    by_cases hr : s ≤ effDay e ∧ effDay e ≤ t
    · have hb : inRangeB s t e = true := (inRangeB_iff s t e).mpr hr
      by_cases hm : e.task_id = r.task_id
      · have hstep : rowStep s t e r = bumpRow r (effDay e) e.minutes := by
          unfold rowStep
          rw [if_pos ⟨hr, hm.symm⟩]
        rw [hstep]
        by_cases hd : effDay e = d
        · subst hd
          simp [bumpRow, List.filter_cons, hb, hm, lookupD_bump, sumMinutes_cons]
          ring
        · have hdd : ¬ d = effDay e := fun hh => hd hh.symm
          simp [bumpRow, List.filter_cons, hb, hm, hd, hdd, lookupD_bump]
      · have hstep : rowStep s t e r = r := by
          unfold rowStep
          rw [if_neg (fun hc => hm hc.2.symm)]
        rw [hstep]
        simp [List.filter_cons, hb, hm]
    · have hstep : rowStep s t e r = r := by
        unfold rowStep
        rw [if_neg (fun hc => hr hc.1)]
      have hb : inRangeB s t e = false := notInRangeB s t e hr
      rw [hstep]
      simp [List.filter_cons, hb]

theorem applyEntries_of_none (s t : Day) (E : List TimeEntry) : ∀ r,
    (∀ e ∈ E, ¬(inRangeB s t e = true ∧ e.task_id = r.task_id)) →
    applyEntries s t r E = r := by
  induction E with
  | nil => intro r _; rfl
  | cons e E ih =>
    intro r h
    have hstep : rowStep s t e r = r := by
      unfold rowStep
      rw [if_neg]
      intro hc
      exact h e (List.mem_cons_self e E)
        ⟨(inRangeB_iff s t e).mpr hc.1, hc.2.symm⟩
    rw [show applyEntries s t r (e :: E) = applyEntries s t (rowStep s t e r) E from rfl,
      hstep]
    exact ih r (fun e' he' => h e' (List.mem_cons_of_mem e he'))

/-! ### Seeding lemmas -/

def rowKeys (rows : List TimesheetTaskData) : List String :=
  rows.map TimesheetTaskData.task_id

theorem mem_mapSet (r q : TimesheetTaskData) : ∀ rows,
    q ∈ mapSet rows r → q ∈ rows ∨ q = r := by
  intro rows
  induction rows with
  | nil =>
    intro h
    simp [mapSet] at h
    exact Or.inr h
  | cons p rest ih =>
    by_cases hp : p.task_id = r.task_id
    · intro h
      simp only [mapSet, if_pos hp, List.mem_cons] at h
      rcases h with h | h
      · exact Or.inr h
      · exact Or.inl (List.mem_cons_of_mem p h)
    · intro h
      simp only [mapSet, if_neg hp, List.mem_cons] at h
      rcases h with h | h
      · exact Or.inl (h ▸ List.mem_cons_self p rest)
      · rcases ih h with h2 | h2
        · exact Or.inl (List.mem_cons_of_mem p h2)
        · exact Or.inr h2

theorem mapSet_append (r : TimesheetTaskData) : ∀ rows,
    r.task_id ∉ rowKeys rows → mapSet rows r = rows ++ [r] := by
  intro rows
  induction rows with
  | nil => intro _; rfl
  | cons p rest ih =>
    intro h
    simp only [rowKeys, List.map_cons, List.mem_cons, not_or] at h
    unfold mapSet
    rw [if_neg (fun hh => h.1 hh.symm), ih h.2]
    rfl

theorem rowKeys_mapSet_mem (r : TimesheetTaskData) : ∀ rows,
    r.task_id ∈ rowKeys rows → rowKeys (mapSet rows r) = rowKeys rows := by
  intro rows
  induction rows with
  | nil => intro h; simp [rowKeys] at h
  | cons p rest ih =>
    intro h
    by_cases hp : p.task_id = r.task_id
    · simp only [mapSet, if_pos hp]
      simp [rowKeys, hp]
    · simp only [mapSet, if_neg hp]
      have h2 : r.task_id ∈ rowKeys rest := by
        rcases List.mem_cons.mp h with h3 | h3
        · exact absurd h3.symm hp
        · exact h3
      simp only [rowKeys, List.map_cons] at *
      rw [ih h2]

theorem nodup_rowKeys_mapSet (rows : List TimesheetTaskData)
    (r : TimesheetTaskData) (h : (rowKeys rows).Nodup) :
    (rowKeys (mapSet rows r)).Nodup := by
  by_cases hmem : r.task_id ∈ rowKeys rows
  · rwa [rowKeys_mapSet_mem r rows hmem]
  · rw [mapSet_append r rows hmem]
    have : rowKeys (rows ++ [r]) = rowKeys rows ++ [r.task_id] := by
      simp [rowKeys]
    rw [this]
    simp [List.nodup_append, h, hmem]

theorem seedAux_nodup (T : List Task) : ∀ acc, (rowKeys acc).Nodup →
    (rowKeys (T.foldl (fun rows tk => mapSet rows (seedRow tk)) acc)).Nodup := by
  induction T with
  | nil => intro acc h; exact h
  | cons tk T ih =>
    intro acc h
    exact ih (mapSet acc (seedRow tk)) (nodup_rowKeys_mapSet acc (seedRow tk) h)

theorem seedRows_nodupKeys (T : List Task) : nodupKeys (seedRows T) := by
  have h : (rowKeys (seedRows T)).Nodup := seedAux_nodup T [] (by simp [rowKeys])
  unfold nodupKeys
  unfold rowKeys at h
  exact List.pairwise_map.mp h

theorem seedAux_mem (q : TimesheetTaskData) (T : List Task) : ∀ acc,
    q ∈ T.foldl (fun rows tk => mapSet rows (seedRow tk)) acc →
    q ∈ acc ∨ ∃ tk ∈ T, q = seedRow tk := by
  induction T with
  | nil => intro acc h; exact Or.inl h
  | cons tk T ih =>
    intro acc h
    rcases ih (mapSet acc (seedRow tk)) h with h2 | h2
    · rcases mem_mapSet (seedRow tk) q acc h2 with h3 | h3
      · exact Or.inl h3
      · exact Or.inr ⟨tk, List.mem_cons_self tk T, h3⟩
    · rcases h2 with ⟨tk', htk', hq⟩
      exact Or.inr ⟨tk', List.mem_cons_of_mem tk htk', hq⟩

theorem mem_seedRows (q : TimesheetTaskData) (T : List Task) :
    q ∈ seedRows T → ∃ tk ∈ T, q = seedRow tk := by
  intro h
  rcases seedAux_mem q T [] h with h2 | h2
  · simp at h2
  · exact h2

theorem seedAux_eq (T : List Task) (hT : (T.map Task.id).Nodup) : ∀ acc,
    (∀ q ∈ acc, q.task_id ∉ T.map Task.id) →
    T.foldl (fun rows tk => mapSet rows (seedRow tk)) acc = acc ++ T.map seedRow := by
  induction T with
  | nil => intro acc _; simp
  | cons tk T ih =>
    intro acc hacc
    rcases List.nodup_cons.mp hT with ⟨htk, hT2⟩
    have h1 : mapSet acc (seedRow tk) = acc ++ [seedRow tk] := by
      apply mapSet_append
      intro hmem
      rcases List.mem_map.mp hmem with ⟨q, hq, hqid⟩
      apply hacc q hq
      rw [List.map_cons]
      rw [show (seedRow tk).task_id = tk.id from rfl] at hqid
      rw [hqid]
      exact List.mem_cons_self _ _
    have h2 : ∀ q ∈ acc ++ [seedRow tk], q.task_id ∉ T.map Task.id := by
      intro q hq
      rcases List.mem_append.mp hq with hq2 | hq2
      · intro hmem
        exact hacc q hq2 (List.mem_cons_of_mem tk.id hmem)
      · simp at hq2
        subst hq2
        simpa [seedRow] using htk
    rw [List.foldl_cons, h1, ih hT2 (acc ++ [seedRow tk]) h2]
    simp

theorem seedRows_eq (T : List Task) (hT : (T.map Task.id).Nodup) :
    seedRows T = T.map seedRow := by
  have := seedAux_eq T hT [] (by simp)
  simpa [seedRows] using this

/-! ### The aggregator's observable fields -/

theorem getTimesheetData_week_total (lc : String → String → Int)
    (E : List TimeEntry) (T : List Task) (s t : Day) :
    (getTimesheetData lc E T s t).week_total
      = sumMinutes (E.filter (inRangeB s t)) := by
  show sumValues (E.foldl (processEntry s t) (seedRows T, [])).2 = _
  rw [processAll_eq s t E (seedRows T) [] (seedRows_nodupKeys T)]
  simp [foldDT_sum, sumValues_nil]

theorem getTimesheetData_daily_totals (lc : String → String → Int)
    (E : List TimeEntry) (T : List Task) (s t d : Day) :
    lookupD (getTimesheetData lc E T s t).daily_totals d
      = sumMinutes (E.filter (fun e => inRangeB s t e && (effDay e == d))) := by
  show lookupD (E.foldl (processEntry s t) (seedRows T, [])).2 d = _
  rw [processAll_eq s t E (seedRows T) [] (seedRows_nodupKeys T)]
  simp [foldDT_lookup, lookupD_nil]

theorem getTimesheetData_tasks (lc : String → String → Int)
    (E : List TimeEntry) (T : List Task) (s t : Day) :
    (getTimesheetData lc E T s t).tasks
      = ((seedRows T).map (fun r => applyEntries s t r E)).mergeSort (rowLE lc) := by
  show ((E.foldl (processEntry s t) (seedRows T, [])).1).mergeSort (rowLE lc) = _
  rw [processAll_eq s t E (seedRows T) [] (seedRows_nodupKeys T)]

theorem mem_tasks (lc : String → String → Int)
    (E : List TimeEntry) (T : List Task) (s t : Day) (row : TimesheetTaskData) :
    row ∈ (getTimesheetData lc E T s t).tasks ↔
      ∃ r ∈ seedRows T, row = applyEntries s t r E := by
  rw [getTimesheetData_tasks, List.mem_mergeSort, List.mem_map]
  constructor
  · rintro ⟨r, hr, hrow⟩
    exact ⟨r, hr, hrow.symm⟩
  · rintro ⟨r, hr, hrow⟩
    exact ⟨r, hr, hrow.symm⟩

/-! ## Concrete data used by witnesses and counterexamples -/

/-- A trivial but legitimate locale comparison (every pair ties). -/
def lc0 : String → String → Int := fun _ _ => 0

def taskA : Task := { id := "A", title := "Task A", status := "todo", assignee_id := "u" }

def taskB : Task := { id := "B", title := "Task B", status := "todo", assignee_id := "u" }

/-- 60 minutes on task A, instant 1000 ms into day 0. -/
def entryA1 : TimeEntry :=
  { id := 1, task_id := "A", user_id := "u", minutes := 60, description := none,
    started_at := some 1000, ended_at := none, created_at := 1000 }

/-- 30 minutes on task A, instant 2000 ms into day 0. -/
def entryA2 : TimeEntry :=
  { id := 2, task_id := "A", user_id := "u", minutes := 30, description := none,
    started_at := some 2000, ended_at := none, created_at := 2000 }

/-- 15 minutes on a task "Z" that is not in the assigned-task list. -/
def entryOrphan : TimeEntry :=
  { id := 3, task_id := "Z", user_id := "u", minutes := 15, description := none,
    started_at := some 3000, ended_at := none, created_at := 3000 }

/-! ## The claims -/

/-- C2: for every entry set, task set and range, `week_total` is the sum of
the minutes of exactly the in-range entries (each counted once);
`daily_totals` at any day is the sum over all in-range entries of that day
regardless of task attribution; and every report row belongs to a task of
the input task set and totals only the entries carrying its own task id —
so an entry whose task is not in the task set contributes to
`daily_totals` and `week_total` but to no row's `total_minutes`. -/
theorem claim_C2 (lc : String → String → Int) (E : List TimeEntry)
    (T : List Task) (s t : Day) :
    (getTimesheetData lc E T s t).week_total = sumMinutes (E.filter (inRangeB s t))
    ∧ (∀ d, lookupD (getTimesheetData lc E T s t).daily_totals d
        = sumMinutes (E.filter (fun e => inRangeB s t e && (effDay e == d))))
    ∧ (∀ row ∈ (getTimesheetData lc E T s t).tasks,
        row.task_id ∈ T.map Task.id
        ∧ row.total_minutes
            = sumMinutes (E.filter (fun e =>
                inRangeB s t e && (e.task_id == row.task_id)))) := by
  refine ⟨getTimesheetData_week_total lc E T s t,
    fun d => getTimesheetData_daily_totals lc E T s t d, ?_⟩
  intro row hrow
  rcases (mem_tasks lc E T s t row).mp hrow with ⟨r, hr, hrow2⟩
  rcases mem_seedRows r T hr with ⟨tk, htk, hrseed⟩
  constructor
  · rw [hrow2, applyEntries_task_id, hrseed]
    exact List.mem_map.mpr ⟨tk, htk, rfl⟩
  · rw [hrow2, applyEntries_total]
    simp only [applyEntries_task_id]
    rw [hrseed]
    simp [seedRow]

def c2Row : TimesheetTaskData := applyEntries 0 6 (seedRow taskA) [entryA1, entryOrphan]

/-- Witness for C2 at a concrete snapshot (one assigned task, one orphan
entry). -/
theorem claim_C2_witness :
    (getTimesheetData lc0 [entryA1, entryOrphan] [taskA] 0 6).week_total
      = sumMinutes (([entryA1, entryOrphan]).filter (inRangeB 0 6))
    ∧ lookupD (getTimesheetData lc0 [entryA1, entryOrphan] [taskA] 0 6).daily_totals 0
      = sumMinutes (([entryA1, entryOrphan]).filter
          (fun e => inRangeB 0 6 e && (effDay e == 0)))
    ∧ (c2Row.task_id ∈ [taskA].map Task.id
       ∧ c2Row.total_minutes
           = sumMinutes (([entryA1, entryOrphan]).filter (fun e =>
               inRangeB 0 6 e && (e.task_id == c2Row.task_id)))) :=
  ⟨(claim_C2 lc0 [entryA1, entryOrphan] [taskA] 0 6).1,
   (claim_C2 lc0 [entryA1, entryOrphan] [taskA] 0 6).2.1 0,
   (claim_C2 lc0 [entryA1, entryOrphan] [taskA] 0 6).2.2 c2Row
     ((mem_tasks lc0 [entryA1, entryOrphan] [taskA] 0 6 c2Row).mpr
       ⟨seedRow taskA, by decide, rfl⟩)⟩

/-- C6: when the task ids are distinct, every task of the input set
appears exactly once among the report rows, whether or not it has
in-range entries; and a task with no in-range entries appears with
`total_minutes = 0` and an empty `daily_time` map. -/
theorem claim_C6 (lc : String → String → Int) (E : List TimeEntry)
    (T : List Task) (s t : Day) (hT : (T.map Task.id).Nodup) :
    ∀ tk ∈ T,
      ((getTimesheetData lc E T s t).tasks.countP
          (fun row => row.task_id == tk.id) = 1)
      ∧ ((∀ e ∈ E, ¬(inRangeB s t e = true ∧ e.task_id = tk.id)) →
          ∀ row ∈ (getTimesheetData lc E T s t).tasks, row.task_id = tk.id →
            row.total_minutes = 0 ∧ row.daily_time = []) := by
  intro tk htk
  constructor
  · rw [getTimesheetData_tasks, (List.mergeSort_perm _ _).countP_eq,
      seedRows_eq T hT, List.map_map, List.countP_map]
    have hcongr : T.countP
        ((fun row => row.task_id == tk.id) ∘ ((fun r => applyEntries s t r E) ∘ seedRow))
        = T.countP (fun tk' => tk'.id == tk.id) := by
      apply List.countP_congr
      intro tk' _
      simp [Function.comp, applyEntries_task_id, seedRow]
    rw [hcongr]
    have : T.countP (fun tk' => tk'.id == tk.id) = List.count tk.id (T.map Task.id) := by
      rw [List.count_eq_countP, List.countP_map]
      rfl
    rw [this]
    exact List.count_eq_one_of_mem hT (List.mem_map.mpr ⟨tk, htk, rfl⟩)
  · intro hE row hrow hkey
    rcases (mem_tasks lc E T s t row).mp hrow with ⟨r, hr, hrow2⟩
    rcases mem_seedRows r T hr with ⟨tk', htk', hrseed⟩
    have hkey2 : r.task_id = tk.id := by
      rw [hrow2, applyEntries_task_id] at hkey
      exact hkey
    have hnone : ∀ e ∈ E, ¬(inRangeB s t e = true ∧ e.task_id = r.task_id) := by
      intro e he hc
      exact hE e he ⟨hc.1, hc.2.trans hkey2⟩
    rw [hrow2, applyEntries_of_none s t E r hnone, hrseed]
    exact ⟨rfl, rfl⟩

/-- Witness for C6: task B is assigned but has no entries. -/
theorem claim_C6_witness :
    ((getTimesheetData lc0 [entryA1] [taskA, taskB] 0 6).tasks.countP
        (fun row => row.task_id == taskB.id) = 1)
    ∧ ((seedRow taskB).total_minutes = 0 ∧ (seedRow taskB).daily_time = []) :=
  ⟨(claim_C6 lc0 [entryA1] [taskA, taskB] 0 6 (by decide) taskB (by decide)).1,
   (claim_C6 lc0 [entryA1] [taskA, taskB] 0 6 (by decide) taskB (by decide)).2
     (by decide) (seedRow taskB)
     ((mem_tasks lc0 [entryA1] [taskA, taskB] 0 6 (seedRow taskB)).mpr
       ⟨seedRow taskB, by decide, by decide⟩)
     rfl⟩

theorem rowLE_iff (lc : String → String → Int) (a b : TimesheetTaskData) :
    rowLE lc a b = true ↔
      (b.total_minutes < a.total_minutes ∨
       (b.total_minutes = a.total_minutes ∧ lc a.task_title b.task_title ≤ 0)) := by
  unfold rowLE
  by_cases h : b.total_minutes = a.total_minutes
  · rw [if_neg (fun hh => hh h)]
    simp [h, lt_irrefl]
  · rw [if_pos h]
    simp only [decide_eq_true_eq]
    constructor
    · exact Or.inl
    · rintro (h2 | h2)
      · exact h2
      · exact absurd h2.1 h

/-- C7: under the (true of `localeCompare`) assumptions that the locale
comparison is total and transitive, the report's task rows are pairwise
ordered by `total_minutes` descending with ties broken by `task_title`
ascending under that comparison. -/
theorem claim_C7 (lc : String → String → Int)
    (hTot : ∀ a b, lc a b ≤ 0 ∨ lc b a ≤ 0)
    (hTrans : ∀ a b c, lc a b ≤ 0 → lc b c ≤ 0 → lc a c ≤ 0)
    (E : List TimeEntry) (T : List Task) (s t : Day) :
    (getTimesheetData lc E T s t).tasks.Pairwise (fun a b =>
      b.total_minutes < a.total_minutes ∨
      (b.total_minutes = a.total_minutes ∧ lc a.task_title b.task_title ≤ 0)) := by
  rw [getTimesheetData_tasks]
  have htrans : ∀ a b c : TimesheetTaskData,
      rowLE lc a b → rowLE lc b c → rowLE lc a c := by
    intro a b c hab hbc
    rw [rowLE_iff] at hab hbc ⊢
    rcases hab with hab | ⟨hab1, hab2⟩
    · rcases hbc with hbc | ⟨hbc1, hbc2⟩
      · exact Or.inl (lt_trans hbc hab)
      · exact Or.inl (by rw [hbc1]; exact hab)
    · rcases hbc with hbc | ⟨hbc1, hbc2⟩
      · exact Or.inl (by rw [← hab1]; exact hbc)
      · exact Or.inr ⟨hbc1.trans hab1, hTrans _ _ _ hab2 hbc2⟩
  have htotal : ∀ a b : TimesheetTaskData, rowLE lc a b || rowLE lc b a := by
    intro a b
    rcases lt_trichotomy a.total_minutes b.total_minutes with h | h | h
    · have hh : rowLE lc b a = true := (rowLE_iff lc b a).mpr (Or.inl h)
      simp [hh]
    · rcases hTot a.task_title b.task_title with h2 | h2
      · have hh : rowLE lc a b = true := (rowLE_iff lc a b).mpr (Or.inr ⟨h.symm, h2⟩)
        simp [hh]
      · have hh : rowLE lc b a = true := (rowLE_iff lc b a).mpr (Or.inr ⟨h, h2⟩)
        simp [hh]
    · have hh : rowLE lc a b = true := (rowLE_iff lc a b).mpr (Or.inl h)
      simp [hh]
  exact (List.sorted_mergeSort htrans htotal _).imp
    (fun hab => (rowLE_iff lc _ _).mp hab)

/-- Witness for C7 with a concrete locale comparison and snapshot. -/
theorem claim_C7_witness :
    (getTimesheetData lc0 [entryA1, entryA2] [taskA, taskB] 0 6).tasks.Pairwise
      (fun a b =>
        b.total_minutes < a.total_minutes ∨
        (b.total_minutes = a.total_minutes ∧ lc0 a.task_title b.task_title ≤ 0)) :=
  claim_C7 lc0 (fun _ _ => Or.inl (le_refl 0)) (fun _ _ _ _ _ => le_refl 0)
    [entryA1, entryA2] [taskA, taskB] 0 6

/-- A loaded report showing 30 minutes for (task A, day 0). -/
def reportW : TimesheetData :=
  { tasks := [{ task_id := "A", task_title := "Task A", task_status := "todo",
                assignee_id := "u", daily_time := [(0, 30)], total_minutes := 30 }],
    daily_totals := [(0, 30)], week_total := 30 }

def envW : Env :=
  { tz := 0, now := 10000000, newId := 7, user := "u", failDelete := fun _ => false }

/-- C8: reconciling a cell to its current value — the parsed (and
minimum-floored) target equals the cell's minutes in the last-loaded
report — issues zero remote calls and leaves the entry set unchanged. -/
theorem claim_C8 (env : Env) (report : TimesheetData) (E : List TimeEntry)
    (taskId : String) (d : Day) (editValue : String)
    (heq : (clampedTotal editValue : ℚ) = currentOf report taskId d) :
    (handleCellSave env report E taskId d editValue).calls = []
    ∧ (handleCellSave env report E taskId d editValue).entries = E := by
  by_cases hneg : parseCellInput editValue < 0
  · rw [handleCellSave_negative env report E taskId d editValue hneg]
    exact ⟨rfl, rfl⟩
  · rw [handleCellSave_noop env report E taskId d editValue hneg (by rw [heq]; ring)]
    exact ⟨rfl, rfl⟩

/-- Witness for C8: re-entering "0:30" over a 30-minute cell. -/
theorem claim_C8_witness :
    (handleCellSave envW reportW [entryA2] "A" 0 "0:30").calls = []
    ∧ (handleCellSave envW reportW [entryA2] "A" 0 "0:30").entries = [entryA2] :=
  claim_C8 envW reportW [entryA2] "A" 0 "0:30"
    (by rw [show clampedTotal "0:30" = 30 from by decide,
        show currentOf reportW "A" 0 = 30 from by decide]
        norm_num)

/-- A loaded report showing 60 minutes for (task A, day 0). -/
def reportC5 : TimesheetData :=
  { tasks := [{ task_id := "A", task_title := "Task A", task_status := "todo",
                assignee_id := "u", daily_time := [(0, 60)], total_minutes := 60 }],
    daily_totals := [(0, 60)], week_total := 60 }

/-- C5 counterexample: the malformed input "abc" (not a well-formed
"H:MM" value) is not rejected with a validation error: `parseInt` coerces
it to 0 and the reconciler proceeds, issuing remote calls — including a
delete — against a cell currently showing 60 minutes. -/
theorem claim_C5_counterexample :
    (handleCellSave envW reportC5 [entryA1] "A" 0 "abc").alerts = []
    ∧ RemoteCall.deleteEntry 1
        ∈ (handleCellSave envW reportC5 [entryA1] "A" 0 "abc").calls := by
  rw [handleCellSave_reduce_zero envW reportC5 [entryA1] "A" 0 "abc" (by decide)
    (by rw [show clampedTotal "abc" = 0 from by decide,
        show currentOf reportC5 "A" 0 = 60 from by decide]
        norm_num)
    (by decide)]
  refine ⟨rfl, ?_⟩
  decide

/-- C5 (amended): only a negative parsed total (`hours*60 + minutes`,
with malformed components coerced to 0 by `parseInt(x) || 0`) is rejected
with the validation alert before any remote call; malformed input that
coerces to a non-negative total is processed as that value. -/
theorem claim_C5_amended (env : Env) (report : TimesheetData) (E : List TimeEntry)
    (taskId : String) (d : Day) (editValue : String)
    (hneg : parseCellInput editValue < 0) :
    (handleCellSave env report E taskId d editValue).calls = []
    ∧ (handleCellSave env report E taskId d editValue).entries = E
    ∧ (handleCellSave env report E taskId d editValue).alerts
        = ["Time cannot be negative"] := by
  rw [handleCellSave_negative env report E taskId d editValue hneg]
  exact ⟨rfl, rfl, rfl⟩

/-- Witness for the amended C5 at the negative input "-1:00". -/
theorem claim_C5_witness :
    (handleCellSave envW reportC5 [entryA1] "A" 0 "-1:00").calls = []
    ∧ (handleCellSave envW reportC5 [entryA1] "A" 0 "-1:00").entries = [entryA1]
    ∧ (handleCellSave envW reportC5 [entryA1] "A" 0 "-1:00").alerts
        = ["Time cannot be negative"] :=
  claim_C5_amended envW reportC5 [entryA1] "A" 0 "-1:00" (by decide)

theorem deletesOf_append (l1 l2 : List RemoteCall) :
    deletesOf (l1 ++ l2) = deletesOf l1 ++ deletesOf l2 := by
  simp [deletesOf, List.filterMap_append]

theorem deletesOf_map_delete (ids : List Nat) :
    deletesOf (ids.map RemoteCall.deleteEntry) = ids := by
  induction ids with
  | nil => rfl
  | cons i ids ih =>
    simp only [List.map_cons, deletesOf, List.filterMap_cons] at ih ⊢
    rw [ih]

theorem bulkDeleteLoop_abort (f : Nat → Bool) : ∀ (toDelete : List TimeEntry)
    (pre : List Nat) (i : Nat) (suf : List Nat),
    (bulkDeleteLoop f toDelete).1 = pre ++ i :: suf → f i = true →
    suf = [] ∧ (bulkDeleteLoop f toDelete).2.2 = some "delete failed" := by
  intro toDelete
  induction toDelete with
  | nil =>
    intro pre i suf h hf
    simp [bulkDeleteLoop] at h
  | cons e rest ih =>
    intro pre i suf h hf
    by_cases hfe : f e.id = true
    · simp only [bulkDeleteLoop, if_pos hfe] at h ⊢
      cases pre with
      | nil =>
        simp only [List.nil_append] at h
        injection h with h3 h4
        exact ⟨h4.symm, trivial⟩
      | cons p pre2 =>
        simp only [List.cons_append] at h
        injection h with h3 h4
        exact absurd h4.symm (by simp)
    · simp only [bulkDeleteLoop, if_neg hfe] at h ⊢
      cases pre with
      | nil =>
        simp only [List.nil_append] at h
        injection h with h3 h4
        rw [← h3] at hf
        exact absurd hf hfe
      | cons p pre2 =>
        simp only [List.cons_append] at h
        injection h with h3 h4
        exact ih pre2 i suf h4 hf

def envFail : Env :=
  { tz := 0, now := 500000, newId := 9, user := "u", failDelete := fun id => id == 1 }

/-- A loaded report showing 90 minutes for (task A, day 0). -/
def reportC4 : TimesheetData :=
  { tasks := [{ task_id := "A", task_title := "Task A", task_status := "todo",
                assignee_id := "u", daily_time := [(0, 90)], total_minutes := 90 }],
    daily_totals := [(0, 90)], week_total := 90 }

/-- C4 counterexample: reducing (task A, day 0) from 90 to 30 minutes with
two matching entries where the delete of entry 1 fails: the reconciler
still issues the delete of entry 2 after the failing delete of entry 1,
and surfaces no error — contradicting "aborts the remaining deletes …
no further delete is issued after the first failure". -/
theorem claim_C4_counterexample :
    envFail.failDelete 1 = true
    ∧ deletesOf (handleCellSave envFail reportC4 [entryA1, entryA2] "A" 0 "0:30").calls
        = [1, 2]
    ∧ (handleCellSave envFail reportC4 [entryA1, entryA2] "A" 0 "0:30").alerts = [] := by
  rw [handleCellSave_reduce_insert envFail reportC4 [entryA1, entryA2] "A" 0 "0:30"
    (by decide)
    (by rw [show clampedTotal "0:30" = 30 from by decide,
        show currentOf reportC4 "A" 0 = 90 from by decide]
        norm_num)
    (by decide)]
  refine ⟨rfl, ?_, rfl⟩
  decide

/-- C4 (amended): the abort-on-failure behaviour belongs to the day-level
bulk delete only — there, no delete is issued after a failing one, the
error is alerted, and the report is reloaded; the cell reconciler's
reduction branch instead issues a delete for every matching entry
regardless of failures, alerts nothing, and reloads. -/
theorem claim_C4_amended :
    (∀ (env : Env) (E : List TimeEntry) (taskId : String) (d : Day)
        (pre : List Nat) (i : Nat) (suf : List Nat),
       deletesOf (handleDeleteTimeForDay env E taskId d).calls = pre ++ i :: suf →
       env.failDelete i = true →
       suf = []
         ∧ (handleDeleteTimeForDay env E taskId d).alerts = ["delete failed"]
         ∧ RemoteCall.reload ∈ (handleDeleteTimeForDay env E taskId d).calls)
    ∧ (∀ (env : Env) (report : TimesheetData) (E : List TimeEntry)
        (taskId : String) (d : Day) (editValue : String),
        ¬ parseCellInput editValue < 0 →
        (clampedTotal editValue : ℚ) - currentOf report taskId d < 0 →
        deletesOf (handleCellSave env report E taskId d editValue).calls
            = (toDeleteOf env E taskId d).map TimeEntry.id
          ∧ (handleCellSave env report E taskId d editValue).alerts = []
          ∧ RemoteCall.reload
              ∈ (handleCellSave env report E taskId d editValue).calls) := by
  constructor
  · intro env E taskId d pre i suf h hf
    simp only [handleDeleteTimeForDay] at h ⊢
    by_cases hfetch : fetchTaskEntries E taskId env.user = []
    · rw [if_pos hfetch] at h
      simp [deletesOf] at h
    · rw [if_neg hfetch] at h ⊢
      simp only [deletesOf_append, deletesOf_map_delete] at h
      have hgs : deletesOf [RemoteCall.getUser,
          RemoteCall.selectEntries taskId env.user] = [] := rfl
      have hrl : deletesOf [RemoteCall.reload] = [] := rfl
      rw [hgs, hrl, List.nil_append, List.append_nil] at h
      rcases bulkDeleteLoop_abort env.failDelete _ pre i suf h hf with ⟨h1, h2⟩
      refine ⟨h1, ?_, ?_⟩
      · show (match (bulkDeleteLoop env.failDelete
            ((fetchTaskEntries E taskId env.user).filter (matchesDay env.tz d))).2.2 with
          | some m => [m] | none => []) = ["delete failed"]
        rw [h2]
      · simp
  · intro env report E taskId d editValue hneg hdiff
    by_cases hpos : 0 < clampedTotal editValue
    · rw [handleCellSave_reduce_insert env report E taskId d editValue hneg hdiff hpos]
      refine ⟨?_, rfl, ?_⟩
      · rw [deletesOf_append, deletesOf_append, deletesOf_map_delete]
        simp [deletesOf]
      · simp
    · rw [handleCellSave_reduce_zero env report E taskId d editValue hneg hdiff hpos]
      refine ⟨?_, rfl, ?_⟩
      · rw [deletesOf_append, deletesOf_append, deletesOf_map_delete]
        simp [deletesOf]
      · simp

/-- Witness for the amended C4: a failing first delete in the bulk delete
aborts, alerts and reloads, while the cell reconciler's reduction branch
issues every delete and alerts nothing. -/
theorem claim_C4_witness :
    (([] : List Nat) = []
      ∧ (handleDeleteTimeForDay envFail [entryA1, entryA2] "A" 0).alerts
          = ["delete failed"]
      ∧ RemoteCall.reload
          ∈ (handleDeleteTimeForDay envFail [entryA1, entryA2] "A" 0).calls)
    ∧ (deletesOf (handleCellSave envFail reportC4 [entryA1, entryA2] "A" 0 "0:30").calls
        = (toDeleteOf envFail [entryA1, entryA2] "A" 0).map TimeEntry.id
      ∧ (handleCellSave envFail reportC4 [entryA1, entryA2] "A" 0 "0:30").alerts = []
      ∧ RemoteCall.reload
          ∈ (handleCellSave envFail reportC4 [entryA1, entryA2] "A" 0 "0:30").calls) :=
  ⟨claim_C4_amended.1 envFail [entryA1, entryA2] "A" 0 [] 1 [] (by decide) (by decide),
   claim_C4_amended.2 envFail reportC4 [entryA1, entryA2] "A" 0 "0:30" (by decide)
     (by rw [show clampedTotal "0:30" = 30 from by decide,
         show currentOf reportC4 "A" 0 = 90 from by decide]
         norm_num)⟩

theorem addManualTimeEntry_min (now : Millis) (newId : Nat) (user : String)
    (input : AddManualTimeEntryInput) :
    1 ≤ (addManualTimeEntry now newId user input).minutes := by
  show (1:ℚ) ≤ (if input.minutes < 1 then 1 else input.minutes)
  split
  · exact le_refl 1
  · next h => exact le_of_not_lt h

theorem stopTimer_minutes_eq (taskId user : String) (newId : Nat) (s n : Millis) :
    (stopTimer taskId user newId s n).minutes
      = (((if jsRound (((n - s : Int) : ℚ) / (1000 * 60)) < 1 then (1:Int)
          else jsRound (((n - s : Int) : ℚ) / (1000 * 60))) : Int) : ℚ) := rfl

theorem stopTimer_min (taskId user : String) (newId : Nat) (s n : Millis) :
    1 ≤ (stopTimer taskId user newId s n).minutes := by
  rw [stopTimer_minutes_eq]
  split
  · norm_num
  · next h => exact_mod_cast le_of_not_lt h

/-- C9: every writer of `time_entries` rows enforces `minutes ≥ 1`: the
manual-entry writer, the timer-stop writer, and (via the former) every
entry the cell reconciler inserts that was not already in the entry set. -/
theorem claim_C9 :
    (∀ (now : Millis) (newId : Nat) (user : String) (input : AddManualTimeEntryInput),
      1 ≤ (addManualTimeEntry now newId user input).minutes)
    ∧ (∀ (taskId user : String) (newId : Nat) (s n : Millis),
      1 ≤ (stopTimer taskId user newId s n).minutes)
    ∧ (∀ (env : Env) (report : TimesheetData) (E : List TimeEntry)
        (taskId : String) (d : Day) (editValue : String) (e : TimeEntry),
        e ∈ (handleCellSave env report E taskId d editValue).entries → e ∉ E →
        1 ≤ e.minutes) := by
  refine ⟨addManualTimeEntry_min, stopTimer_min, ?_⟩
  intro env report E taskId d editValue e he hne
  by_cases hneg : parseCellInput editValue < 0
  · rw [handleCellSave_negative env report E taskId d editValue hneg] at he
    exact absurd he hne
  · rcases lt_trichotomy ((clampedTotal editValue : ℚ) - currentOf report taskId d) 0
      with hlt | heq0 | hgt
    · by_cases hpos : 0 < clampedTotal editValue
      · rw [handleCellSave_reduce_insert env report E taskId d editValue hneg hlt hpos]
          at he
        simp only [List.mem_append, List.mem_singleton] at he
        rcases he with he | he
        · exact absurd (List.mem_of_mem_filter he) hne
        · rw [he]
          exact addManualTimeEntry_min _ _ _ _
      · rw [handleCellSave_reduce_zero env report E taskId d editValue hneg hlt hpos]
          at he
        exact absurd (List.mem_of_mem_filter he) hne
    · rw [handleCellSave_noop env report E taskId d editValue hneg heq0] at he
      exact absurd he hne
    · rw [handleCellSave_insert env report E taskId d editValue hneg hgt] at he
      simp only [List.mem_append, List.mem_singleton] at he
      rcases he with he | he
      · exact absurd he hne
      · rw [he]
        exact addManualTimeEntry_min _ _ _ _

def reportEmpty : TimesheetData := { tasks := [], daily_totals := [], week_total := 0 }

/-- The entry the reconciler inserts when raising (task A, day 0)
from 0 to 30 minutes. -/
def c9Entry : TimeEntry :=
  cellEntry envW "A" 0 ((clampedTotal "0:30" : ℚ) - currentOf reportEmpty "A" 0)

/-- Witness for C9 on the reconciler path. -/
theorem claim_C9_witness : 1 ≤ c9Entry.minutes := by
  have hdiff : 0 < (clampedTotal "0:30" : ℚ) - currentOf reportEmpty "A" 0 := by
    rw [show clampedTotal "0:30" = 30 from by decide,
      show currentOf reportEmpty "A" 0 = 0 from rfl]
    norm_num
  exact claim_C9.2.2 envW reportEmpty [] "A" 0 "0:30" c9Entry
    (by rw [handleCellSave_insert envW reportEmpty [] "A" 0 "0:30" (by decide) hdiff]
        simp [c9Entry])
    (by simp)

/-- C10: a stopped timer records the wall-clock elapsed milliseconds
divided by 60000 and rounded to the nearest whole minute (`Math.round`,
i.e. `⌊x + 1/2⌋` — not truncation), floored at 1, and stores the start
and stop instants in `started_at`/`ended_at`; in particular an 89-second
timer records 1 minute and a 150-second timer records 3. -/
theorem claim_C10 :
    (∀ (taskId user : String) (newId : Nat) (s n : Millis),
      (stopTimer taskId user newId s n).minutes
          = ((max 1 (Int.floor (((n - s : Int) : ℚ) / 60000 + 1/2)) : Int) : ℚ)
      ∧ (stopTimer taskId user newId s n).started_at = some s
      ∧ (stopTimer taskId user newId s n).ended_at = some n)
    ∧ (stopTimer "t" "u" 1 0 89000).minutes = 1
    ∧ (stopTimer "t" "u" 1 0 150000).minutes = 3 := by
  have hgen : ∀ (taskId user : String) (newId : Nat) (s n : Millis),
      (stopTimer taskId user newId s n).minutes
        = ((max 1 (Int.floor (((n - s : Int) : ℚ) / 60000 + 1/2)) : Int) : ℚ) := by
    intro taskId user newId s n
    rw [stopTimer_minutes_eq]
    congr 1
    have h60 : ((1000 * 60 : ℚ)) = 60000 := by norm_num
    unfold jsRound
    rw [h60]
    rcases lt_or_le (Int.floor (((n - s : Int) : ℚ) / 60000 + 1/2)) 1 with h | h
    · rw [if_pos h, max_eq_left (le_of_lt h)]
    · rw [if_neg (not_lt_of_le h), max_eq_right h]
  refine ⟨fun taskId user newId s n => ⟨hgen taskId user newId s n, rfl, rfl⟩, ?_, ?_⟩
  · rw [hgen]
    have hx : ((89000 - 0 : Int) : ℚ) / 60000 + 1/2 = 119/60 := by norm_num
    rw [hx]
    have hf : Int.floor ((119/60 : ℚ)) = 1 := by
      rw [Int.floor_eq_iff]
      constructor <;> norm_num
    rw [hf]
    norm_num
  · rw [hgen]
    have hx : ((150000 - 0 : Int) : ℚ) / 60000 + 1/2 = 3 := by norm_num
    rw [hx]
    have hf : Int.floor ((3 : ℚ)) = 3 := by
      rw [Int.floor_eq_iff]
      constructor <;> norm_num
    rw [hf]
    norm_num

theorem getTimesheetData_tasks_single (lc : String → String → Int)
    (E : List TimeEntry) (tk : Task) (s t : Day) :
    (getTimesheetData lc E [tk] s t).tasks = [applyEntries s t (seedRow tk) E] := by
  rw [getTimesheetData_tasks, show seedRows [tk] = [seedRow tk] from rfl,
    List.map_cons, List.map_nil, List.mergeSort_singleton]

theorem currentOf_single (lc : String → String → Int) (E : List TimeEntry)
    (tk : Task) (s t d : Day) :
    currentOf (getTimesheetData lc E [tk] s t) tk.id d
      = sumMinutes (E.filter (fun e =>
          inRangeB s t e && (e.task_id == tk.id) && (effDay e == d))) := by
  unfold currentOf
  rw [getTimesheetData_tasks_single]
  have hid : ((applyEntries s t (seedRow tk) E).task_id == tk.id) = true := by
    rw [applyEntries_task_id]
    simp [seedRow]
  rw [List.find?_cons, hid]
  show lookupD (applyEntries s t (seedRow tk) E).daily_time d = _
  rw [applyEntries_daily]
  simp [seedRow, lookupD_nil]

def envC1 : Env :=
  { tz := 0, now := 86401000, newId := 1, user := "u", failDelete := fun _ => false }

def c1Report0 : TimesheetData := getTimesheetData lc0 [] [taskA] 0 6

def c1Result : ReconcileResult := handleCellSave envC1 c1Report0 [] taskA.id 0 "0:30"

def c1Report1 : TimesheetData := getTimesheetData lc0 c1Result.entries [taskA] 0 6

/-- C1 at the failing input: with no existing entries, editing the
(task A, day 0) cell to "0:30" (a non-negative target) when the wall
clock is on day 1 inserts an entry whose `created_at` — and hence
effective date — is day 1; after re-aggregation the edited cell still
shows 0 instead of 30, and the (task A, day 1) cell changed from 0 to
30, contradicting both halves of the claimed guarantee. -/
theorem claim_C1_eval :
    parseCellInput "0:30" = 30
    ∧ currentOf c1Report0 taskA.id 0 = 0
    ∧ currentOf c1Report0 taskA.id 1 = 0
    ∧ currentOf c1Report1 taskA.id 0 = 0
    ∧ currentOf c1Report1 taskA.id 1 = 30 := by
  have hc0 : ∀ d : Day, currentOf c1Report0 taskA.id d = 0 := by
    intro d
    show currentOf (getTimesheetData lc0 [] [taskA] 0 6) taskA.id d = 0
    rw [currentOf_single]
    rfl
  have hmin : (clampedTotal "0:30" : ℚ) - currentOf c1Report0 taskA.id 0 = 30 := by
    rw [show clampedTotal "0:30" = 30 from by decide, hc0 0]
    norm_num
  have hdiff : 0 < (clampedTotal "0:30" : ℚ) - currentOf c1Report0 taskA.id 0 := by
    rw [hmin]
    norm_num
  have hres : c1Result.entries = [cellEntry envC1 taskA.id 0 (30 : ℚ)] := by
    show (handleCellSave envC1 c1Report0 [] taskA.id 0 "0:30").entries = _
    rw [handleCellSave_insert envC1 c1Report0 [] taskA.id 0 "0:30" (by decide) hdiff]
    show [] ++ [cellEntry envC1 taskA.id 0 _] = _
    rw [List.nil_append, hmin]
  have hm30 : (cellEntry envC1 taskA.id 0 (30 : ℚ)).minutes = 30 := by
    show (if (30:ℚ) < 1 then 1 else (30:ℚ)) = 30
    rw [if_neg (by norm_num)]
  refine ⟨by decide, hc0 0, hc0 1, ?_, ?_⟩
  · show currentOf (getTimesheetData lc0 c1Result.entries [taskA] 0 6) taskA.id 0 = 0
    rw [currentOf_single, hres]
    have hp : (inRangeB 0 6 (cellEntry envC1 taskA.id 0 (30 : ℚ))
        && ((cellEntry envC1 taskA.id 0 (30 : ℚ)).task_id == taskA.id)
        && (effDay (cellEntry envC1 taskA.id 0 (30 : ℚ)) == 0)) = false := by decide
    simp [List.filter_cons, hp, sumMinutes_nil]
  · show currentOf (getTimesheetData lc0 c1Result.entries [taskA] 0 6) taskA.id 1 = 30
    rw [currentOf_single, hres]
    have hp : (inRangeB 0 6 (cellEntry envC1 taskA.id 0 (30 : ℚ))
        && ((cellEntry envC1 taskA.id 0 (30 : ℚ)).task_id == taskA.id)
        && (effDay (cellEntry envC1 taskA.id 0 (30 : ℚ)) == 1)) = true := by decide
    simp [List.filter_cons, hp, sumMinutes_cons, sumMinutes_nil, hm30]

def entryLate : TimeEntry :=
  { id := 1, task_id := "A", user_id := "u", minutes := 5, description := none,
    started_at := some 86399500, ended_at := none, created_at := 86399500 }

def envC3 : Env :=
  { tz := 0, now := 86399999, newId := 4, user := "u", failDelete := fun _ => false }

/-- C3 at the failing input: an entry at 23:59:59.500 UTC of day 0 has
effective date day 0 — the aggregator counts its 5 minutes in day 0's
totals — yet the delete filter's window `[T00:00:00, T23:59:59]`
(second precision) excludes it, so the day-level bulk delete for
(task A, day 0) issues no delete and leaves the entry in place even in a
UTC runtime: the deleted set is not the set of entries whose effective
date equals the target day. -/
theorem claim_C3_eval :
    effDay entryLate = 0
    ∧ matchesDay envC3.tz 0 entryLate = false
    ∧ deletesOf (handleDeleteTimeForDay envC3 [entryLate] taskA.id 0).calls = []
    ∧ (handleDeleteTimeForDay envC3 [entryLate] taskA.id 0).entries = [entryLate]
    ∧ lookupD (getTimesheetData lc0 [entryLate] [taskA] 0 0).daily_totals 0
        = entryLate.minutes := by
  refine ⟨by decide, by decide, by decide, by decide, ?_⟩
  rw [getTimesheetData_daily_totals]
  have hc : (inRangeB 0 0 entryLate && (effDay entryLate == 0)) = true := by decide
  simp [List.filter_cons, hc, sumMinutes_cons, sumMinutes_nil]

end ProjectMan
